import Mathlib

/-
Verification of the time-indexed record container of tsdb-backtester
(src/lib/datapoint.hpp, src/lib/datapoint.cpp, src/lib/timeseries.hpp,
and the archived src/archive/timeseries_poly.cpp).

Modelling conventions:
  time_t           -> Nat (seconds since the epoch; the container only compares keys)
  double           -> Rat (field values are stored and moved, never computed with)
  int              -> Int
  std::map<time_t,T> -> a strictly-ascending association list (List (Nat x T));
                      the sortedness invariant is carried as an explicit hypothesis
  thrown exception -> Except / a dedicated outcome constructor
  undefined behavior (dereference of an end iterator) -> CppOutcome.ub
-/

namespace Tsdb

/-- DataPointException from datapoint.hpp: carries an unsigned error code;
code 1000 is the message "Vector initialization failed. Index out of range."
(the spec's InvalidRecordInit). -/
structure DataPointException where
  error_code : Nat
  deriving DecidableEq

/-- OHLC record (datapoint.hpp): four double fields open, high, low, close.
The C++ field name open is a Lean keyword, hence open_. -/
structure OHLC where
  open_ : Rat
  high : Rat
  low : Rat
  close : Rat
  deriving DecidableEq

/-- OHLCV record (datapoint.hpp): declaration order is volume first
(int volume; double open, high, low, close), which fixes C++ member
initialization order. -/
structure OHLCV where
  volume : Int
  open_ : Rat
  high : Rat
  low : Rat
  close : Rat
  deriving DecidableEq

/-- BidAsk record (datapoint.hpp): two double fields bid, ask. -/
structure BidAsk where
  bid : Rat
  ask : Rat
  deriving DecidableEq

/-- std::vector::at(i): yields the element when i is in range and throws
std::out_of_range otherwise (modelled as Except.error ()). -/
def vecAt (l : List Rat) (i : Nat) : Except Unit Rat :=
  match l.get? i with
  | some v => Except.ok v
  | none => Except.error ()

/-- Conversion double -> int in C++ truncates toward zero. -/
def truncToInt (x : Rat) : Int :=
  if 0 ≤ x then x.floor else x.ceil

/-- OHLC::OHLC(const std::vector<double>&) from datapoint.cpp: a function-try
block initializes open, high, low, close from init.at(0..3); any
std::out_of_range is caught and rethrown as DataPointException(1000). -/
def OHLC.fromVector (init : List Rat) : Except DataPointException OHLC :=
  match vecAt init 0, vecAt init 1, vecAt init 2, vecAt init 3 with
  | .ok o, .ok h, .ok l, .ok c => .ok ⟨o, h, l, c⟩
  | _, _, _, _ => .error ⟨1000⟩

/-- OHLCV::OHLCV(const std::vector<double>&) from datapoint.cpp: members are
initialized in declaration order, so volume is set first from init.at(4)
(double truncated to int), then open..close from init.at(0..3); any
std::out_of_range becomes DataPointException(1000). -/
def OHLCV.fromVector (init : List Rat) : Except DataPointException OHLCV :=
  match vecAt init 4, vecAt init 0, vecAt init 1, vecAt init 2, vecAt init 3 with
  | .ok v, .ok o, .ok h, .ok l, .ok c => .ok ⟨truncToInt v, o, h, l, c⟩
  | _, _, _, _, _ => .error ⟨1000⟩

/-- BidAsk::BidAsk(const std::vector<double>&) from datapoint.cpp: bid from
init.at(0), ask from init.at(1); std::out_of_range becomes
DataPointException(1000). -/
def BidAsk.fromVector (init : List Rat) : Except DataPointException BidAsk :=
  match vecAt init 0, vecAt init 1 with
  | .ok b, .ok a => .ok ⟨b, a⟩
  | _, _ => .error ⟨1000⟩

/-- Compile-time tag for the template parameter T of dp_names<T> and
TimeSeries<T>: T must derive from DataPoint (BOOST_STATIC_ASSERT is_base_of);
besides the three specialized schemas, any user-defined subclass of DataPoint
is admitted, modelled by the other constructor (one per type name). -/
inductive DPType where
  | ohlc
  | ohlcv
  | bidask
  | other (typeName : String)
  deriving DecidableEq

/-- Stand-in for an arbitrary user-defined DataPoint subclass: its field
content is unconstrained (a list of numeric values). -/
structure OtherDataPoint where
  fields : List Rat
  deriving DecidableEq

/-- Mapping from the compile-time tag to the record value type. -/
def Record : DPType → Type
  | .ohlc => OHLC
  | .ohlcv => OHLCV
  | .bidask => BidAsk
  | .other _ => OtherDataPoint

instance instDecEqRecord : (d : DPType) → DecidableEq (Record d)
  | .ohlc => inferInstanceAs (DecidableEq OHLC)
  | .ohlcv => inferInstanceAs (DecidableEq OHLCV)
  | .bidask => inferInstanceAs (DecidableEq BidAsk)
  | .other _ => inferInstanceAs (DecidableEq OtherDataPoint)

/-- dp_names<T> from datapoint.hpp: template specializations give the field
name lists of OHLC, OHLCV and BidAsk; the generic template, which applies to
every other type derived from DataPoint, returns the one-element vector
containing the empty string. -/
def dp_names : DPType → List String
  | .ohlc => ["open", "high", "low", "close"]
  | .ohlcv => ["open", "high", "low", "close", "volume"]
  | .bidask => ["bid", "ask"]
  | .other _ => [""]

/-- Outcome of a C++ accessor that performs no error handling: either a value,
or undefined behavior (here: dereferencing the end iterator of an empty map). -/
inductive CppOutcome (α : Type) where
  | ok (val : α)
  | ub
  deriving DecidableEq

/-- Exception raised by std::map::at on an absent key. -/
inductive CppExn where
  | outOfRange
  deriving DecidableEq

/-- Insertion into the sorted entry list of a std::map<time_t,T>: walks the
entries in ascending key order; a strictly smaller position inserts, an equal
key leaves the map unchanged, and the returned flag is the .second of the
std::pair<iterator,bool> that std::map::insert / emplace returns (true iff
the element was inserted, never an overwrite). -/
def mapInsert {R : Type} (t : Nat) (v : R) : List (Nat × R) → List (Nat × R) × Bool
  | [] => ([(t, v)], true)
  | (k, w) :: rest =>
    if t < k then ((t, v) :: (k, w) :: rest, true)
    else if t = k then ((k, w) :: rest, false)
    else ((k, w) :: (mapInsert t v rest).1, (mapInsert t v rest).2)

/-- Lookup in the entry list of a std::map (std::map::at / find): the record
stored at key t, or none when no entry has that key. -/
def mapAt {R : Type} (l : List (Nat × R)) (t : Nat) : Option R :=
  match l with
  | [] => none
  | (k, w) :: rest => if k = t then some w else mapAt rest t

/-- Keys of the entry list are strictly ascending: the intrinsic ordering
invariant of std::map, carried here as an explicit hypothesis. -/
abbrev SortedKeys {R : Type} (l : List (Nat × R)) : Prop :=
  l.Pairwise (fun p q => p.1 < q.1)

/-- TimeSeries<T> from timeseries.hpp: member _data (the sorted map), _meta
(free-form label) and _isLoaded (advisory load flag); the leading underscores
of the C++ member names are dropped. The values / timestamps memberspaces hold
only a back-reference to the owner and carry no state of their own, so they do
not appear as fields; their traversals are the functions valuesTraversal and
timestampsTraversal below. -/
structure TimeSeries (D : DPType) where
  data : List (Nat × Record D)
  meta : String
  isLoaded : Bool

instance instDecEqTimeSeries (D : DPType) : DecidableEq (TimeSeries D) :=
  fun a b =>
    decidable_of_iff (a.data = b.data ∧ a.meta = b.meta ∧ a.isLoaded = b.isLoaded)
      (by cases a; cases b; simp)

/-- Default constructor TimeSeries(meta = ""): empty map, load flag false. -/
def TimeSeries.init {D : DPType} (meta : String) : TimeSeries D :=
  ⟨[], meta, false⟩

/-- TimeSeries::size(): _data.size(). -/
def TimeSeries.size {D : DPType} (s : TimeSeries D) : Nat :=
  s.data.length

/-- TimeSeries::isEmpty(): _data.empty(). -/
def TimeSeries.isEmpty {D : DPType} (s : TimeSeries D) : Bool :=
  s.data.isEmpty

/-- TimeSeries::clear(): _data.clear(); metadata and load flag untouched. -/
def TimeSeries.clear {D : DPType} (s : TimeSeries D) : TimeSeries D :=
  { s with data := [] }

/-- Keys of the series, in the map's ascending order. -/
def TimeSeries.keys {D : DPType} (s : TimeSeries D) : List Nat :=
  s.data.map Prod.fst

/-- TimeSeries::insert (all three overloads: copy, move and emplace forward to
_data.insert / _data.emplace): returns the updated series and the .second
flag of the underlying map insertion. -/
def TimeSeries.insert {D : DPType} (s : TimeSeries D) (t : Nat) (v : Record D) :
    TimeSeries D × Bool :=
  let r := mapInsert t v s.data
  ({ s with data := r.1 }, r.2)

/-- Repeated insertion of a sequence of (timestamp, record) pairs, the way the
external loader populates a series. -/
def TimeSeries.insertAll {D : DPType} (s : TimeSeries D) (ps : List (Nat × Record D)) :
    TimeSeries D :=
  ps.foldl (fun acc p => (acc.insert p.1 p.2).1) s

/-- TimeSeries::get_timestamps(): materializes a fresh vector with all keys in
ascending order (boost::copy of _data | map_keys into a new vector). -/
def TimeSeries.get_timestamps {D : DPType} (s : TimeSeries D) : List Nat :=
  s.data.map Prod.fst

/-- TimeSeries::column_names(): delegates to dp_names<T>. -/
def TimeSeries.column_names {D : DPType} (_ : TimeSeries D) : List String :=
  dp_names D

/-- TimeSeries::first(): returns bpt::from_time_t(_data.begin()->first) with no
emptiness check; on an empty map begin() equals end() and the dereference is
undefined behavior. The bpt::ptime wrapper is dropped (it is a bijective
re-coding of the time_t). -/
def TimeSeries.first {D : DPType} (s : TimeSeries D) : CppOutcome Nat :=
  match s.data.head? with
  | some e => CppOutcome.ok e.1
  | none => CppOutcome.ub

/-- TimeSeries::last(): if size()==0 it returns
bpt::from_time_t(_data.begin()->first), which dereferences the end iterator of
the empty map (undefined behavior); otherwise it returns _data.rbegin()->first,
the greatest key. -/
def TimeSeries.last {D : DPType} (s : TimeSeries D) : CppOutcome Nat :=
  if s.size = 0 then
    match s.data.head? with
    | some e => CppOutcome.ok e.1
    | none => CppOutcome.ub
  else
    match s.data.getLast? with
    | some e => CppOutcome.ok e.1
    | none => CppOutcome.ub

/-- TimeSeries::operator[]: returns _data.at(k); std::map::at throws
std::out_of_range when the key is absent (the source comments the accessor
with "throws"). -/
def TimeSeries.bracketAccess {D : DPType} (s : TimeSeries D) (k : Nat) :
    Except CppExn (Record D) :=
  match mapAt s.data k with
  | some v => Except.ok v
  | none => Except.error CppExn.outOfRange

/-- Full begin()..end() traversal of the values memberspace: the
transform_iterator applies getDataPoint (projection to the pair's .second) to
each entry of the owner's map in ascending key order. -/
def TimeSeries.valuesTraversal {D : DPType} (s : TimeSeries D) : List (Record D) :=
  s.data.map Prod.snd

/-- Full begin()..end() traversal of the timestamps memberspace: the
transform_iterator applies getTimeStamp (projection to the pair's .first) to
each entry of the owner's map in ascending key order. -/
def TimeSeries.timestampsTraversal {D : DPType} (s : TimeSeries D) : List Nat :=
  s.data.map Prod.fst

/-- Move construction TimeSeries(TimeSeries&&): _meta and _data are moved
(ownership transfer leaving the source string empty and the source map empty,
as every mainstream standard library implements it), _isLoaded is copied, and
the constructor body then sets ts._isLoaded = false on the source. Returns
(destination, moved-from source). -/
def TimeSeries.moveCtor {D : DPType} (s : TimeSeries D) :
    TimeSeries D × TimeSeries D :=
  (⟨s.data, s.meta, s.isLoaded⟩, ⟨[], "", false⟩)

/-- Move assignment operator=(TimeSeries&&): the target takes rhs's _meta,
_data and _isLoaded; rhs is left with an empty (moved-from) map and string and
_isLoaded = false. Returns (new target, moved-from rhs); the self-assignment
guard is identity-based and outside a value model. Moves do not allocate, so
move assignment has no failure path. -/
def TimeSeries.moveAssign {D : DPType} (_target rhs : TimeSeries D) :
    TimeSeries D × TimeSeries D :=
  (⟨rhs.data, rhs.meta, rhs.isLoaded⟩, ⟨[], "", false⟩)

/-- Copy assignment operator=(const TimeSeries&): assigns this->_data =
rhs._data, then _meta = rhs._meta, then _isLoaded = rhs._isLoaded, in that
order. Copying the map or the string allocates and may fail; ok1 and ok2 say
whether the two fallible copies succeed. A failure propagates out of the
operator with the target left in its state at the point of failure (the source
comments this operator with "basic exception safety"); the error value is that
state of the target. -/
def TimeSeries.copyAssign {D : DPType} (ok1 ok2 : Bool) (target rhs : TimeSeries D) :
    Except (TimeSeries D) (TimeSeries D) :=
  if ok1 then
    let t1 : TimeSeries D := { target with data := rhs.data }
    if ok2 then
      Except.ok { t1 with meta := rhs.meta, isLoaded := rhs.isLoaded }
    else Except.error t1
  else Except.error target

/-- TimeSeries::assign(TimeSeries rhs): the by-value parameter copies rhs
before the body runs (okCopy says whether that copy succeeds; a failure throws
at the call site with the target untouched); the body swaps the fresh copy
into *this, and swap exchanges _isLoaded, _meta and _data without allocating,
so on success the target is exactly a copy of rhs (the source comments this
with "strong exception safety"). -/
def TimeSeries.assign {D : DPType} (okCopy : Bool) (target rhs : TimeSeries D) :
    Except (TimeSeries D) (TimeSeries D) :=
  if okCopy then Except.ok rhs else Except.error target

/-- TimeSeries::frequency from the archived polymorphic implementation
(src/archive/timeseries_poly.cpp): returns a default-constructed
bpt::time_duration, i.e. the zero duration, for every series, and never
throws. Durations are modelled in seconds. In the active template class
(src/lib/timeseries.hpp) the function is commented out entirely. -/
def TimeSeries.frequency {D : DPType} (_ : TimeSeries D) : Int :=
  0

/-- Every key of the map after an insertion is the inserted key or one of the
old keys. -/
theorem mapInsert_fst_mem {R : Type} (t : Nat) (v : R) (l : List (Nat × R)) :
    ∀ x ∈ (mapInsert t v l).1.map Prod.fst, x = t ∨ x ∈ l.map Prod.fst := by
  induction l with
  | nil =>
      intro x hx
      simp [mapInsert] at hx
      exact Or.inl hx
  | cons p rest ih =>
      obtain ⟨k, w⟩ := p
      intro x hx
      by_cases h1 : t < k
      · simp [mapInsert, h1] at hx ⊢
        tauto
      · by_cases h2 : t = k
        · simp [mapInsert, h1, h2] at hx ⊢
          tauto
        · simp only [mapInsert, if_neg h1, if_neg h2, List.map_cons, List.mem_cons] at hx ⊢
          rcases hx with hx | hx
          · exact Or.inr (Or.inl hx)
          · rcases ih x hx with h | h
            · exact Or.inl h
            · exact Or.inr (Or.inr h)

/-- Insertion preserves the strict ascending-key invariant of the map. -/
theorem mapInsert_sorted {R : Type} (t : Nat) (v : R) (l : List (Nat × R))
    (hs : SortedKeys l) : SortedKeys (mapInsert t v l).1 := by
  induction l with
  | nil => simp [mapInsert]
  | cons p rest ih =>
      obtain ⟨k, w⟩ := p
      rcases List.pairwise_cons.mp hs with ⟨hk, hrest⟩
      by_cases h1 : t < k
      · simp only [mapInsert, if_pos h1]
        refine List.Pairwise.cons ?_ hs
        intro q hq
        rcases List.mem_cons.mp hq with rfl | hq'
        · exact h1
        · exact lt_trans h1 (hk q hq')
      · by_cases h2 : t = k
        · simpa [mapInsert, h1, h2] using hs
        · simp only [mapInsert, if_neg h1, if_neg h2]
          refine List.Pairwise.cons ?_ (ih hrest)
          intro q hq
          have hx := mapInsert_fst_mem t v rest q.1 (List.mem_map_of_mem Prod.fst hq)
          rcases hx with hx | hx
          · omega
          · rcases List.mem_map.mp hx with ⟨q', hq', hq1⟩
            have := hk q' hq'
            omega

/-- Inserting an absent key reports true and the key list becomes a
permutation of the old keys with the new key added. -/
theorem mapInsert_not_mem {R : Type} (t : Nat) (v : R) (l : List (Nat × R))
    (h : t ∉ l.map Prod.fst) :
    ((mapInsert t v l).1.map Prod.fst).Perm (t :: l.map Prod.fst) ∧
    (mapInsert t v l).2 = true := by
  induction l with
  | nil => simp [mapInsert]
  | cons p rest ih =>
      obtain ⟨k, w⟩ := p
      simp only [List.map_cons, List.mem_cons] at h
      push_neg at h
      by_cases h1 : t < k
      · simp [mapInsert, h1]
      · by_cases h2 : t = k
        · exact absurd h2 h.1
        · have := ih h.2
          simp only [mapInsert, if_neg h1, if_neg h2, List.map_cons]
          constructor
          · exact (this.1.cons k).trans (List.Perm.swap t k (rest.map Prod.fst))
          · exact this.2

/-- Inserting a key already present in a sorted map reports false and leaves
the map completely unchanged. -/
theorem mapInsert_mem {R : Type} (t : Nat) (v : R) (l : List (Nat × R))
    (hs : SortedKeys l) (h : t ∈ l.map Prod.fst) :
    mapInsert t v l = (l, false) := by
  induction l with
  | nil => simp at h
  | cons p rest ih =>
      obtain ⟨k, w⟩ := p
      rcases List.pairwise_cons.mp hs with ⟨hk, hrest⟩
      simp only [List.map_cons, List.mem_cons] at h
      by_cases h1 : t < k
      · exfalso
        rcases h with rfl | h
        · omega
        · rcases List.mem_map.mp h with ⟨q, hq, hq1⟩
          have := hk q hq
          omega
      · by_cases h2 : t = k
        · simp [mapInsert, h1, h2]
        · have ht : t ∈ rest.map Prod.fst := by tauto
          simp [mapInsert, h1, h2, ih hrest ht]

/-- After inserting an absent key, lookup at that key finds the new record. -/
theorem mapAt_mapInsert_self {R : Type} (t : Nat) (v : R) (l : List (Nat × R))
    (h : t ∉ l.map Prod.fst) :
    mapAt (mapInsert t v l).1 t = some v := by
  induction l with
  | nil => simp [mapInsert, mapAt]
  | cons p rest ih =>
      obtain ⟨k, w⟩ := p
      simp only [List.map_cons, List.mem_cons] at h
      push_neg at h
      by_cases h1 : t < k
      · simp [mapInsert, h1, mapAt]
      · by_cases h2 : t = k
        · exact absurd h2 h.1
        · have hkt : ¬ k = t := fun hc => h.1 hc.symm
          simp [mapInsert, h1, h2, mapAt, hkt, ih h.2]

/-- Insertion leaves lookup at every other key unchanged. -/
theorem mapAt_mapInsert_ne {R : Type} (t u : Nat) (v : R) (l : List (Nat × R))
    (hu : u ≠ t) :
    mapAt (mapInsert t v l).1 u = mapAt l u := by
  induction l with
  | nil =>
      have : ¬ t = u := fun hc => hu hc.symm
      simp [mapInsert, mapAt, this]
  | cons p rest ih =>
      obtain ⟨k, w⟩ := p
      by_cases h1 : t < k
      · have : ¬ t = u := fun hc => hu hc.symm
        simp [mapInsert, h1, mapAt, this]
      · by_cases h2 : t = k
        · simp [mapInsert, h1, h2]
        · by_cases h3 : k = u
          · subst h3
            simp [mapInsert, h1, h2, mapAt]
          · simp [mapInsert, h1, h2, mapAt, h3, ih]

/-- Loading a disjoint, duplicate-free batch of entries into a series with a
sorted map keeps the map sorted, makes its key list a permutation of the old
keys plus the batch keys, and grows the size by the batch length. -/
theorem insertAll_spec {D : DPType} :
    ∀ (ps : List (Nat × Record D)) (s : TimeSeries D),
      SortedKeys s.data → (ps.map Prod.fst).Nodup →
      (∀ x ∈ ps.map Prod.fst, x ∉ s.data.map Prod.fst) →
      SortedKeys (s.insertAll ps).data ∧
      ((s.insertAll ps).data.map Prod.fst).Perm
        (s.data.map Prod.fst ++ ps.map Prod.fst) ∧
      (s.insertAll ps).size = s.size + ps.length
  | [], s, hs, _, _ => by
      refine ⟨hs, ?_, by simp [TimeSeries.insertAll, TimeSeries.size]⟩
      simp [TimeSeries.insertAll]
  | (t, v) :: rest, s, hs, hnd, hdis => by
      have htns : t ∉ s.data.map Prod.fst := hdis t (by simp)
      have hins := mapInsert_not_mem t v s.data htns
      have hsort1 : SortedKeys (mapInsert t v s.data).1 := mapInsert_sorted t v s.data hs
      have hnd2 : t ∉ rest.map Prod.fst ∧ (rest.map Prod.fst).Nodup := by
        rw [List.map_cons] at hnd
        exact List.nodup_cons.mp hnd
      have hnd' : (rest.map Prod.fst).Nodup := hnd2.2
      have hthd : t ∉ rest.map Prod.fst := hnd2.1
      have hdis' : ∀ x ∈ rest.map Prod.fst,
          x ∉ (mapInsert t v s.data).1.map Prod.fst := by
        intro x hx hmem
        have hx2 := hins.1.mem_iff.mp hmem
        rcases List.mem_cons.mp hx2 with rfl | hx3
        · exact hthd hx
        · exact hdis x (by simp [hx]) hx3
      have hstep : s.insertAll ((t, v) :: rest) =
          TimeSeries.insertAll ⟨(mapInsert t v s.data).1, s.meta, s.isLoaded⟩ rest := by
        simp [TimeSeries.insertAll, TimeSeries.insert]
      have ih := insertAll_spec rest ⟨(mapInsert t v s.data).1, s.meta, s.isLoaded⟩
        hsort1 hnd' hdis'
      rw [hstep]
      refine ⟨ih.1, ?_, ?_⟩
      · refine ih.2.1.trans ?_
        have hperm := hins.1.append_right (rest.map Prod.fst)
        refine hperm.trans ?_
        simp only [List.cons_append]
        exact List.perm_middle.symm
      · have hlen : (mapInsert t v s.data).1.length = s.data.length + 1 := by
          have h1 : ((mapInsert t v s.data).1.map Prod.fst).length =
              (t :: s.data.map Prod.fst).length := hins.1.length_eq
          simpa using h1
        have := ih.2.2
        simp only [TimeSeries.size] at this ⊢
        simp [this, hlen, List.length_cons]
        omega

/-- Sample OHLC record used by the concrete instances below. -/
def sampleBar : OHLC := ⟨10, 20, 5, 15⟩

/-- Second sample OHLC record, distinct from sampleBar. -/
def sampleBar2 : OHLC := ⟨11, 21, 6, 16⟩

/-- An empty OHLC series built by the default constructor. -/
def emptySeries : TimeSeries DPType.ohlc := TimeSeries.init ""

/-- A loaded OHLC series with entries at timestamps 100, 160 and 220 (minimum
adjacent gap 60 seconds). -/
def threeSeries : TimeSeries DPType.ohlc :=
  ⟨[(100, sampleBar), (160, sampleBar), (220, sampleBar)], "ts", true⟩

/-- A series holding a single entry. -/
def oneSeries : TimeSeries DPType.ohlc := ⟨[(100, sampleBar)], "one", true⟩

/-- C1: on the empty Series, first() and last() do not fail with an EmptySeries
error: first() dereferences _data.begin() (the end iterator) with no check, and
last() checks size()==0 but then still dereferences _data.begin() - both are
undefined behavior, and no EmptySeries error exists anywhere in the code. -/
theorem c1_first_last_empty_no_error :
    emptySeries.first = CppOutcome.ub ∧ emptySeries.last = CppOutcome.ub :=
  ⟨rfl, rfl⟩

/-- C2 counterexample: copy operator= assigns _data before _meta, so when the
map copy succeeds and the label copy fails, the target is left partially
updated - it already holds the source's mapping but still its own old label,
so the result is neither the untouched prior state nor the fully assigned one. -/
theorem c2_copy_assign_partial_update :
    TimeSeries.copyAssign true false
        (⟨[], "old", false⟩ : TimeSeries DPType.ohlc) ⟨[(100, sampleBar)], "new", true⟩ =
      Except.error ⟨[(100, sampleBar)], "old", false⟩ ∧
    ([(100, sampleBar)] : List (Nat × Record DPType.ohlc)) ≠ [] ∧
    "old" ≠ "new" := by
  refine ⟨rfl, by simp, by simp⟩

/-- C2 amended: assign() (copy-then-swap) either fully succeeds, replacing the
target by a copy of the source, or fails with the target unmodified; move
assignment always fully succeeds; and copy operator= fully replaces the target
when none of its member copies fails - only a failing copy inside copy
operator= can leave the target partially updated. -/
theorem c2_assignment_atomicity_amended (D : DPType) (ok : Bool)
    (t r : TimeSeries D) :
    (TimeSeries.assign ok t r = Except.ok r ∨
      TimeSeries.assign ok t r = Except.error t) ∧
    (t.moveAssign r).1 = r ∧
    TimeSeries.copyAssign true true t r = Except.ok r := by
  refine ⟨?_, rfl, rfl⟩
  cases ok
  · exact Or.inr rfl
  · exact Or.inl rfl

/-- C3: the frequency operation is an unimplemented stub. In the active
template class it is commented out; the archived implementation returns a
default-constructed (zero) time_duration for every series, so on timestamps
(100, 160, 220) it returns 0 rather than the 60-second minimum gap, and on a
single-entry or empty series it returns 0 instead of failing with
InsufficientData. -/
theorem c3_frequency_unimplemented_zero :
    threeSeries.frequency = 0 ∧ threeSeries.frequency ≠ 60 ∧
    oneSeries.frequency = 0 ∧ emptySeries.frequency = 0 :=
  ⟨rfl, by decide, rfl, rfl⟩

/-- C7: move construction and move assignment leave the destination holding
exactly the source's prior content (mapping, metadata label and load flag) and
leave the source logically empty: is_empty() is true and the load flag is
false. -/
theorem c7_move_semantics (D : DPType) (s target : TimeSeries D) :
    s.moveCtor.1 = s ∧
    s.moveCtor.2.isEmpty = true ∧ s.moveCtor.2.isLoaded = false ∧
    (target.moveAssign s).1 = s ∧
    (target.moveAssign s).2.isEmpty = true ∧
    (target.moveAssign s).2.isLoaded = false :=
  ⟨rfl, rfl, rfl, rfl, rfl, rfl⟩

/-- C8: the compiling lookup path, operator[], returns the stored record when
the timestamp is present but throws std::out_of_range when it is absent,
rather than reporting absence without error; the Option-like accessor on() is
ill-formed when instantiated (it returns _data.at(tm), a record reference,
where a const_iterator is required) and is never called in the repository. -/
theorem c8_lookup_absent_throws :
    threeSeries.bracketAccess 100 = Except.ok sampleBar ∧
    threeSeries.bracketAccess 999 = Except.error CppExn.outOfRange :=
  ⟨rfl, rfl⟩

/-- C4: on a series whose map satisfies the sortedness invariant, insert
returns true and adds the entry when the timestamp is absent (the new record is
found at that timestamp, every other lookup is unchanged, the size grows by
one, metadata and load flag are untouched), and returns false leaving the
series completely unchanged - in particular never overwriting the existing
record - when the timestamp is already present. insert is a total function:
it has no error outcome. -/
theorem c4_insert_no_overwrite (D : DPType) (s : TimeSeries D) (t : Nat)
    (v : Record D) (hs : SortedKeys s.data) :
    (t ∉ s.data.map Prod.fst →
      (s.insert t v).2 = true ∧
      mapAt (s.insert t v).1.data t = some v ∧
      (∀ u, u ≠ t → mapAt (s.insert t v).1.data u = mapAt s.data u) ∧
      (s.insert t v).1.size = s.size + 1 ∧
      (s.insert t v).1.meta = s.meta ∧ (s.insert t v).1.isLoaded = s.isLoaded) ∧
    (t ∈ s.data.map Prod.fst →
      (s.insert t v).2 = false ∧ (s.insert t v).1 = s) := by
  constructor
  · intro h
    have h1 := mapInsert_not_mem t v s.data h
    refine ⟨h1.2, mapAt_mapInsert_self t v s.data h, ?_, ?_, rfl, rfl⟩
    · intro u hu
      exact mapAt_mapInsert_ne t u v s.data hu
    · have hlen := h1.1.length_eq
      simp only [List.length_map, List.length_cons] at hlen
      simp only [TimeSeries.insert, TimeSeries.size]
      omega
  · intro h
    have h2 := mapInsert_mem t v s.data hs h
    constructor
    · simp [TimeSeries.insert, h2]
    · simp [TimeSeries.insert, h2]

/-- C4 witness: inserting timestamp 200 into a series holding only timestamp
100 reports true and the new record is found at 200; re-inserting timestamp
100 with a different record reports false and the series is unchanged. -/
theorem c4_insert_no_overwrite_witness :
    (oneSeries.insert 200 sampleBar2).2 = true ∧
    mapAt (oneSeries.insert 200 sampleBar2).1.data 200 = some sampleBar2 ∧
    (oneSeries.insert 100 sampleBar2).2 = false ∧
    (oneSeries.insert 100 sampleBar2).1 = oneSeries := by
  have hs : SortedKeys oneSeries.data := by simp [oneSeries]
  have h1 := c4_insert_no_overwrite DPType.ohlc oneSeries 200 sampleBar2 hs
  have h2 := c4_insert_no_overwrite DPType.ohlc oneSeries 100 sampleBar2 hs
  have hn : (200 : Nat) ∉ oneSeries.data.map Prod.fst := by simp [oneSeries]
  have hm : (100 : Nat) ∈ oneSeries.data.map Prod.fst := by simp [oneSeries]
  exact ⟨(h1.1 hn).1, (h1.1 hn).2.1, (h2.2 hm).1, (h2.2 hm).2⟩

/-- C5: populating an empty series by inserting any sequence of pairs with
pairwise-distinct timestamps, in any insertion order, yields a series whose
get_timestamps() is exactly the inserted timestamps (a permutation of them) in
strictly ascending order, and whose size() equals the number of inserted
timestamps. get_timestamps materializes a fresh list, not a view. -/
theorem c5_timestamps_sorted_snapshot (D : DPType) (ps : List (Nat × Record D))
    (h : (ps.map Prod.fst).Nodup) :
    ((TimeSeries.init "").insertAll ps).get_timestamps.Perm (ps.map Prod.fst) ∧
    List.Pairwise (fun a b => a < b)
      ((TimeSeries.init "").insertAll ps).get_timestamps ∧
    ((TimeSeries.init "").insertAll ps).size = ps.length := by
  have h0 := insertAll_spec ps (TimeSeries.init "")
    (by simp [TimeSeries.init]) h (by simp [TimeSeries.init])
  refine ⟨?_, ?_, ?_⟩
  · have hp := h0.2.1
    simpa [TimeSeries.init] using hp
  · exact List.pairwise_map.mpr h0.1
  · have hl := h0.2.2
    simpa [TimeSeries.init, TimeSeries.size] using hl

/-- C5 witness: inserting timestamps 220, 100, 160 in that (unsorted) order
into an empty series gives a timestamp snapshot that is a permutation of the
inserted keys, is strictly ascending, and a size of 3. -/
theorem c5_timestamps_sorted_snapshot_witness :
    (([(220, sampleBar), (100, sampleBar), (160, sampleBar)] :
        List (Nat × Record DPType.ohlc)).map Prod.fst).Nodup ∧
    ((TimeSeries.init "" : TimeSeries DPType.ohlc).insertAll
        [(220, sampleBar), (100, sampleBar), (160, sampleBar)]).get_timestamps.Perm
      [220, 100, 160] ∧
    List.Pairwise (fun a b => a < b)
      ((TimeSeries.init "" : TimeSeries DPType.ohlc).insertAll
        [(220, sampleBar), (100, sampleBar), (160, sampleBar)]).get_timestamps ∧
    ((TimeSeries.init "" : TimeSeries DPType.ohlc).insertAll
        [(220, sampleBar), (100, sampleBar), (160, sampleBar)]).size = 3 := by
  have hnd : (([(220, sampleBar), (100, sampleBar), (160, sampleBar)] :
      List (Nat × Record DPType.ohlc)).map Prod.fst).Nodup := by decide
  have h := c5_timestamps_sorted_snapshot DPType.ohlc
    [(220, sampleBar), (100, sampleBar), (160, sampleBar)] hnd
  exact ⟨hnd, h.1, h.2.1, h.2.2⟩

/-- C6: on a series of size N satisfying the sortedness invariant, a full
values-memberspace traversal yields exactly N records and a full
timestamps-memberspace traversal yields exactly N timestamps; the timestamps
come out strictly ascending, and zipping the two traversals recovers the
underlying entries - i.e. the i-th record is the one stored at the i-th
ascending timestamp. Traversals are pure functions of the series state, so two
consecutive traversals without intervening mutation are identical
(restartability). -/
theorem c6_view_traversals (D : DPType) (s : TimeSeries D)
    (hs : SortedKeys s.data) :
    s.valuesTraversal.length = s.size ∧
    s.timestampsTraversal.length = s.size ∧
    List.Pairwise (fun a b => a < b) s.timestampsTraversal ∧
    s.timestampsTraversal.zip s.valuesTraversal = s.data ∧
    s.valuesTraversal = s.valuesTraversal ∧
    s.timestampsTraversal = s.timestampsTraversal := by
  refine ⟨List.length_map _ _, List.length_map _ _, ?_, ?_, rfl, rfl⟩
  · exact List.pairwise_map.mpr hs
  · simp [TimeSeries.timestampsTraversal, TimeSeries.valuesTraversal,
      List.zip_map']

/-- C6 witness: the three-entry series yields 3 records and 3 strictly
ascending timestamps, and the zipped traversals recover its entries. -/
theorem c6_view_traversals_witness :
    threeSeries.valuesTraversal.length = threeSeries.size ∧
    threeSeries.timestampsTraversal.length = threeSeries.size ∧
    List.Pairwise (fun a b => a < b) threeSeries.timestampsTraversal ∧
    threeSeries.timestampsTraversal.zip threeSeries.valuesTraversal =
      threeSeries.data := by
  have hs : SortedKeys threeSeries.data := by decide
  have h := c6_view_traversals DPType.ohlc threeSeries hs
  exact ⟨h.1, h.2.1, h.2.2.1, h.2.2.2.1⟩

/-- C9: positional construction from a vector of values fails with
DataPointException(1000) (the InvalidRecordInit error) exactly when the vector
is shorter than the schema requires - 4 values for OHLC, 5 for OHLCV, 2 for
BidAsk - and with enough values assigns the fields in the fixed schema order:
open, high, low, close from positions 0..3 (and volume from position 4,
truncated to int, for OHLCV); bid, ask from positions 0..1. -/
theorem c9_positional_record_init (init : List Rat) :
    (init.length < 4 → OHLC.fromVector init = Except.error ⟨1000⟩) ∧
    (4 ≤ init.length → OHLC.fromVector init =
      Except.ok ⟨init.getD 0 0, init.getD 1 0, init.getD 2 0, init.getD 3 0⟩) ∧
    (init.length < 5 → OHLCV.fromVector init = Except.error ⟨1000⟩) ∧
    (5 ≤ init.length → OHLCV.fromVector init =
      Except.ok ⟨truncToInt (init.getD 4 0), init.getD 0 0, init.getD 1 0,
        init.getD 2 0, init.getD 3 0⟩) ∧
    (init.length < 2 → BidAsk.fromVector init = Except.error ⟨1000⟩) ∧
    (2 ≤ init.length → BidAsk.fromVector init =
      Except.ok ⟨init.getD 0 0, init.getD 1 0⟩) := by
  refine ⟨?_, ?_, ?_, ?_, ?_, ?_⟩ <;> intro hl
  · rcases init with _ | ⟨a, _ | ⟨b, _ | ⟨c, _ | ⟨d, rest⟩⟩⟩⟩
    · rfl
    · rfl
    · rfl
    · rfl
    · exfalso
      simp only [List.length_cons] at hl
      omega
  · rcases init with _ | ⟨a, _ | ⟨b, _ | ⟨c, _ | ⟨d, rest⟩⟩⟩⟩
    · simp at hl
    · simp at hl
    · simp at hl
    · simp at hl
    · simp [OHLC.fromVector, vecAt]
  · rcases init with _ | ⟨a, _ | ⟨b, _ | ⟨c, _ | ⟨d, _ | ⟨e, rest⟩⟩⟩⟩⟩
    · rfl
    · rfl
    · rfl
    · rfl
    · rfl
    · exfalso
      simp only [List.length_cons] at hl
      omega
  · rcases init with _ | ⟨a, _ | ⟨b, _ | ⟨c, _ | ⟨d, _ | ⟨e, rest⟩⟩⟩⟩⟩
    · simp at hl
    · simp at hl
    · simp at hl
    · simp at hl
    · simp at hl
    · simp [OHLCV.fromVector, vecAt]
  · rcases init with _ | ⟨a, _ | ⟨b, rest⟩⟩
    · rfl
    · rfl
    · exfalso
      simp only [List.length_cons] at hl
      omega
  · rcases init with _ | ⟨a, _ | ⟨b, rest⟩⟩
    · simp at hl
    · simp at hl
    · simp [BidAsk.fromVector, vecAt]

/-- C9 witness: a 3-value vector fails OHLC construction, a 4-value one builds
the OHLC in order; a 4-value vector fails OHLCV construction, a 5-value one
builds the OHLCV with volume at position 4; a 1-value vector fails BidAsk
construction, a 2-value one builds the BidAsk in order. -/
theorem c9_positional_record_init_witness :
    OHLC.fromVector [1, 2, 3] = Except.error ⟨1000⟩ ∧
    OHLC.fromVector [1, 2, 3, 4] = Except.ok ⟨1, 2, 3, 4⟩ ∧
    OHLCV.fromVector [1, 2, 3, 4] = Except.error ⟨1000⟩ ∧
    OHLCV.fromVector [1, 2, 3, 4, 5] = Except.ok ⟨5, 1, 2, 3, 4⟩ ∧
    BidAsk.fromVector [1] = Except.error ⟨1000⟩ ∧
    BidAsk.fromVector [1, 2] = Except.ok ⟨1, 2⟩ := by
  refine ⟨(c9_positional_record_init [1, 2, 3]).1 (by simp),
    ?_, (c9_positional_record_init [1, 2, 3, 4]).2.2.1 (by simp), ?_,
    (c9_positional_record_init [1]).2.2.2.2.1 (by simp), ?_⟩
  · have h := (c9_positional_record_init [1, 2, 3, 4]).2.1 (by simp)
    simpa using h
  · have h := (c9_positional_record_init [1, 2, 3, 4, 5]).2.2.2.1 (by simp)
    rw [h]
    norm_num [truncToInt]
    decide
  · have h := (c9_positional_record_init [1, 2]).2.2.2.2.2 (by simp)
    simpa using h

/-- C10: for every DataPoint-derived type other than the three specialized
schemas OHLC, OHLCV and BidAsk, the generic dp_names template applies and
yields the one-element list containing the empty string, and a series over
such a type reports exactly that as its column_names() - so this interface
does not enforce the set of schema variants with meaningful column names to
be closed. -/
theorem c10_generic_dp_names (d : DPType) (s : TimeSeries d)
    (h1 : d ≠ DPType.ohlc) (h2 : d ≠ DPType.ohlcv) (h3 : d ≠ DPType.bidask) :
    dp_names d = [""] ∧ s.column_names = [""] := by
  cases d with
  | ohlc => exact absurd rfl h1
  | ohlcv => exact absurd rfl h2
  | bidask => exact absurd rfl h3
  | other n => exact ⟨rfl, rfl⟩

/-- C10 witness: a series over a hypothetical user-defined TickData subclass
of DataPoint reports the one-element empty-string column list. -/
theorem c10_generic_dp_names_witness :
    DPType.other "TickData" ≠ DPType.ohlc ∧
    dp_names (DPType.other "TickData") = [""] ∧
    (TimeSeries.init "t" : TimeSeries (DPType.other "TickData")).column_names =
      [""] := by
  have h := c10_generic_dp_names (DPType.other "TickData") (TimeSeries.init "t")
    (by simp) (by simp) (by simp)
  exact ⟨by simp, h.1, h.2⟩

end Tsdb
